import Mathlib

/-!
Verification of the SPI flash programmer (src/spiflasher.py).

The development shallowly embeds the two components the specification's
claims are about:

* the pure detect-result decoder `FlashUtility.process_detect`
  (manufacturer / capacity / part-number strings built from the two
  static lookup tables), and
* the protocol engine `SerialThread.run` (Detect / Read / Write / Erase
  over a serial transport), modelled as a fuel-indexed function over an
  abstract transport whose reads and writes may return data or raise.

Machine bytes are `Nat` values; Python float formatting of
`capacity / (1024*1024)` is exact here because division by `2^20` only
shifts the exponent of a double, so the rendered string is the
round-half-to-even decimal of the rational `capacity / 2^20`.
-/

namespace SpiFlasher

/-- The MANUFACTURERS table of spiflasher.py: JEDEC manufacturer byte to name. -/
def MANUFACTURERS : List (Nat × String) :=
  [(0xEF, "Winbond"), (0xC2, "Macronix"), (0x20, "Micron"), (0x1F, "Adesto/Atmel"),
   (0xBF, "Microchip"), (0x1C, "EON"), (0x9D, "ISSI")]

/-- The DEVICE_CAPACITY table of spiflasher.py: capacity code byte to label. -/
def DEVICE_CAPACITY : List (Nat × String) :=
  [(0x11, "512KB"), (0x12, "1MB"), (0x13, "2MB"), (0x14, "4MB"), (0x15, "8MB"),
   (0x16, "16MB"), (0x17, "32MB"), (0x18, "64MB"), (0x19, "128MB"),
   (0x40, "1MB"), (0x50, "2MB"), (0x60, "4MB"), (0x70, "8MB"), (0x80, "16MB"),
   (0x90, "32MB")]

/-- Python `dict.get(k)` on an association list (keys are distinct in both tables). -/
def tableGet (t : List (Nat × String)) (k : Nat) : Option String :=
  match t.find? (fun p => p.1 == k) with
  | some p => some p.2
  | none => none

/-- One uppercase hexadecimal digit, as in Python format spec `X`. -/
def hexDigit (n : Nat) : String :=
  ["0", "1", "2", "3", "4", "5", "6", "7", "8", "9",
   "A", "B", "C", "D", "E", "F"].getD n ""

/-- Fuel-driven helper for `hexStr`; the fuel bounds the number of divisions. -/
def hexStrAux : Nat → Nat → String
  | 0, n => hexDigit (n % 16)
  | fuel + 1, n => if n < 16 then hexDigit n else hexStrAux fuel (n / 16) ++ hexDigit (n % 16)

/-- Python `f"{n:X}"`: uppercase hex, no leading zeros (fuel `n` suffices). -/
def hexStr (n : Nat) : String := hexStrAux n n

/-- Python `f"{n:02X}"`: uppercase hex zero-padded to width 2. -/
def hex2 (n : Nat) : String :=
  let s := hexStr n
  if s.length < 2 then "0" ++ s else s

/-- Round `a / b` to the nearest integer, ties to even (`b > 0`). -/
def roundHalfEvenDiv (a b : Nat) : Nat :=
  let q := a / b
  let r := a % b
  if 2 * r < b then q
  else if b < 2 * r then q + 1
  else if q % 2 = 0 then q else q + 1

/-- Python `f"{mb:.1f}"` for `mb = capacity / (1024*1024)`: the quotient is exact
as a double, and `.1f` renders its round-half-to-even value to one decimal. -/
def fmtMB (capacity : Nat) : String :=
  let tenths := roundHalfEvenDiv (capacity * 10) (1024 * 1024)
  toString (tenths / 10) ++ "." ++ toString (tenths % 10)

/-- The strings `FlashUtility.process_detect` computes and displays. -/
structure DetectView where
  jedecLabel : String
  manufacturer : String
  capacityLabel : String
  partNumber : String
  deriving DecidableEq

/-- `FlashUtility.process_detect` on a 3-byte JEDEC id `[j0, j1, j2]` and a
capacity value. `none` models the call raising an exception: the local `mb`
is bound only when `capacity ≠ 0`, yet the Winbond unknown-code branch reads
it unconditionally (UnboundLocalError in Python). -/
def process_detect (j0 j1 j2 capacity : Nat) : Option DetectView :=
  let manufacturer := (tableGet MANUFACTURERS j0).getD "Unknown"
  let jedecLabel := hex2 j0 ++ " " ++ hex2 j1 ++ " " ++ hex2 j2
  let capacityLabel := if capacity = 0 then "Unknown" else fmtMB capacity ++ " MB"
  let mb : Option Nat := if capacity = 0 then none else some capacity
  if manufacturer = "Winbond" then
    match tableGet DEVICE_CAPACITY j1 with
    | some lbl =>
      some ⟨jedecLabel, manufacturer, capacityLabel,
        "W25Q" ++ hexStr j1 ++ " (" ++ lbl ++ ")"⟩
    | none =>
      match mb with
      | some c =>
        some ⟨jedecLabel, manufacturer, capacityLabel,
          "Unknown Winbond (" ++ fmtMB c ++ "MB)"⟩
      | none => none
  else
    match tableGet DEVICE_CAPACITY j2 with
    | some lbl => some ⟨jedecLabel, manufacturer, capacityLabel, lbl ++ " Chip"⟩
    | none =>
      some ⟨jedecLabel, manufacturer, capacityLabel,
        "Unknown (" ++ fmtMB (if 0 < capacity then capacity else 0) ++ "MB)"⟩

/-- Python `int.from_bytes(b, 'little')`. -/
def fromLEBytes : List Nat → Nat
  | [] => 0
  | b :: rest => b + 256 * fromLEBytes rest

/-- An abstract serial transport: `readRes i n` is the outcome of the `i`-th
`ser.read(n)` call of an operation and `writeRes i` the outcome of its `i`-th
`ser.write(...)` call; `Except.error m` models the call raising an exception
whose string form is `m`. -/
structure Transport where
  readRes : Nat → Nat → Except String (List Nat)
  writeRes : Nat → Except String Unit

/-- The commands `SerialThread.run` dispatches on. -/
inductive Command where
  | detect
  | read
  | write
  | erase
  deriving DecidableEq

/-- A terminal signal emitted by `SerialThread.run`: `finished`,
`detect_result`, or `error` with its message. -/
inductive Terminal where
  | finished
  | detected (jedec : List Nat) (capacity : Nat)
  | errorEvt (msg : String)
  deriving DecidableEq

/-- How the body of `SerialThread.run` (the `try` block) ends: a terminal
signal was emitted, an exception escaped to the `except` handler, or the
fuel ran out with a transfer loop still running. -/
inductive Outcome where
  | done (t : Terminal)
  | exn (msg : String)
  | fuelOut
  deriving DecidableEq

/-- How a transfer loop ends. -/
inductive LoopEnd where
  | ok
  | exn (msg : String)
  | fuelOut
  deriving DecidableEq

/-- State of the Read transfer loop when it stops: file bytes written,
progress values emitted, `received`, the next transport-read index, and why
it stopped. -/
structure ReadLoopOut where
  sink : List Nat
  progs : List Nat
  received : Nat
  nextRead : Nat
  outcome : LoopEnd
  deriving DecidableEq

/-- The Read transfer loop of `SerialThread.run` (lines 79-85):
`while received < total: chunk = ser.read(min(4096, total - received));
f.write(chunk); received += len(chunk); progress.emit(received/total*100)`.
`fuel` bounds the number of iterations modelled; running out of fuel is the
model's image of the loop still spinning. -/
def readLoop (t : Transport) (total fuel ri received : Nat) (sink progs : List Nat) :
    ReadLoopOut :=
  if received < total then
    match fuel with
    | 0 => ⟨sink, progs, received, ri, .fuelOut⟩
    | fuel + 1 =>
      match t.readRes ri (min 4096 (total - received)) with
      | .error m => ⟨sink, progs, received, ri + 1, .exn m⟩
      | .ok chunk =>
        readLoop t total fuel (ri + 1) (received + chunk.length) (sink ++ chunk)
          (progs ++ [(received + chunk.length) * 100 / total])
  else ⟨sink, progs, received, ri, .ok⟩

/-- State of the Write transfer loop when it stops. -/
structure WriteLoopOut where
  progs : List Nat
  sent : Nat
  nextWrite : Nat
  outcome : LoopEnd
  deriving DecidableEq

/-- The Write transfer loop of `SerialThread.run` (lines 96-103):
`while sent < total: chunk = f.read(256); ser.write(chunk);
sent += len(chunk); progress.emit(sent/total*100)`. The file is `fileData`
and the file position equals `sent`, so `f.read(256)` yields
`(fileData.drop sent).take 256`. -/
def writeLoop (t : Transport) (fileData : List Nat) (total fuel wi sent : Nat)
    (progs : List Nat) : WriteLoopOut :=
  if sent < total then
    match fuel with
    | 0 => ⟨progs, sent, wi, .fuelOut⟩
    | fuel + 1 =>
      match t.writeRes wi with
      | .error m => ⟨progs, sent, wi + 1, .exn m⟩
      | .ok _ =>
        writeLoop t fileData total fuel (wi + 1)
          (sent + ((fileData.drop sent).take 256).length)
          (progs ++ [(sent + ((fileData.drop sent).take 256).length) * 100 / total])
  else ⟨progs, sent, wi, .ok⟩

/-- Everything observable about one `SerialThread.run` body: progress values
emitted, bytes written to the dump file, payload bytes sent to the transport,
transport reads and writes attempted, and how the `try` block ended. -/
structure BodyOut where
  progs : List Nat
  sink : List Nat
  sent : Nat
  reads : Nat
  writes : Nat
  out : Outcome
  deriving DecidableEq

/-- The `try` block of `SerialThread.run` (lines 54-114), per command.
Transport calls are numbered in program order; an `Except.error` from the
transport propagates as `Outcome.exn` at the point it is raised. -/
def runBody (t : Transport) (cmd : Command) (fileData : List Nat) (flashSize : Nat)
    (fuel : Nat) : BodyOut :=
  match cmd with
  | .detect =>
    match t.writeRes 0 with
    | .error m => ⟨[], [], 0, 0, 1, .exn m⟩
    | .ok _ =>
      match t.readRes 0 3 with
      | .error m => ⟨[], [], 0, 1, 1, .exn m⟩
      | .ok jedec =>
        if jedec.length ≠ 3 then
          ⟨[], [], 0, 1, 1, .done (.errorEvt "JEDEC ID read failed")⟩
        else
          match t.readRes 1 4 with
          | .error m => ⟨[], [], 0, 2, 1, .exn m⟩
          | .ok cb =>
            if cb.length ≠ 4 then
              ⟨[], [], 0, 2, 1, .done (.errorEvt "Capacity read failed")⟩
            else ⟨[], [], 0, 2, 1, .done (.detected jedec (fromLEBytes cb))⟩
  | .read =>
    match t.writeRes 0 with
    | .error m => ⟨[], [], 0, 0, 1, .exn m⟩
    | .ok _ =>
    match t.writeRes 1 with
    | .error m => ⟨[], [], 0, 0, 2, .exn m⟩
    | .ok _ =>
    match t.writeRes 2 with
    | .error m => ⟨[], [], 0, 0, 3, .exn m⟩
    | .ok _ =>
    match t.readRes 0 1 with
    | .error m => ⟨[], [], 0, 1, 3, .exn m⟩
    | .ok ack =>
      if ack ≠ [0xAA] then ⟨[], [], 0, 1, 3, .done (.errorEvt "ACK failed")⟩
      else
        match (readLoop t flashSize fuel 1 0 [] []).outcome with
        | .ok =>
          ⟨(readLoop t flashSize fuel 1 0 [] []).progs,
           (readLoop t flashSize fuel 1 0 [] []).sink, 0,
           (readLoop t flashSize fuel 1 0 [] []).nextRead, 3, .done .finished⟩
        | .exn m =>
          ⟨(readLoop t flashSize fuel 1 0 [] []).progs,
           (readLoop t flashSize fuel 1 0 [] []).sink, 0,
           (readLoop t flashSize fuel 1 0 [] []).nextRead, 3, .exn m⟩
        | .fuelOut =>
          ⟨(readLoop t flashSize fuel 1 0 [] []).progs,
           (readLoop t flashSize fuel 1 0 [] []).sink, 0,
           (readLoop t flashSize fuel 1 0 [] []).nextRead, 3, .fuelOut⟩
  | .write =>
    match t.writeRes 0 with
    | .error m => ⟨[], [], 0, 0, 1, .exn m⟩
    | .ok _ =>
    match t.writeRes 1 with
    | .error m => ⟨[], [], 0, 0, 2, .exn m⟩
    | .ok _ =>
    match t.writeRes 2 with
    | .error m => ⟨[], [], 0, 0, 3, .exn m⟩
    | .ok _ =>
    match t.readRes 0 1 with
    | .error m => ⟨[], [], 0, 1, 3, .exn m⟩
    | .ok ack =>
      if ack ≠ [0xAA] then ⟨[], [], 0, 1, 3, .done (.errorEvt "ACK failed")⟩
      else
        match (writeLoop t fileData flashSize fuel 3 0 []).outcome with
        | .exn m =>
          ⟨(writeLoop t fileData flashSize fuel 3 0 []).progs, [],
           (writeLoop t fileData flashSize fuel 3 0 []).sent, 1,
           (writeLoop t fileData flashSize fuel 3 0 []).nextWrite, .exn m⟩
        | .fuelOut =>
          ⟨(writeLoop t fileData flashSize fuel 3 0 []).progs, [],
           (writeLoop t fileData flashSize fuel 3 0 []).sent, 1,
           (writeLoop t fileData flashSize fuel 3 0 []).nextWrite, .fuelOut⟩
        | .ok =>
          match t.readRes 1 1 with
          | .error m =>
            ⟨(writeLoop t fileData flashSize fuel 3 0 []).progs, [],
             (writeLoop t fileData flashSize fuel 3 0 []).sent, 2,
             (writeLoop t fileData flashSize fuel 3 0 []).nextWrite, .exn m⟩
          | .ok fin =>
            if fin = [0xAA] then
              ⟨(writeLoop t fileData flashSize fuel 3 0 []).progs, [],
               (writeLoop t fileData flashSize fuel 3 0 []).sent, 2,
               (writeLoop t fileData flashSize fuel 3 0 []).nextWrite, .done .finished⟩
            else
              ⟨(writeLoop t fileData flashSize fuel 3 0 []).progs, [],
               (writeLoop t fileData flashSize fuel 3 0 []).sent, 2,
               (writeLoop t fileData flashSize fuel 3 0 []).nextWrite,
               .done (.errorEvt "Write failed")⟩
  | .erase =>
    match t.writeRes 0 with
    | .error m => ⟨[], [], 0, 0, 1, .exn m⟩
    | .ok _ =>
      match t.readRes 0 1 with
      | .error m => ⟨[], [], 0, 1, 1, .exn m⟩
      | .ok c =>
        if c = [0xAA] then ⟨[], [], 0, 1, 1, .done .finished⟩
        else ⟨[], [], 0, 1, 1, .done (.errorEvt "Erase failed")⟩

/-- The observable result of a whole `SerialThread.run` call. `terminal = none`
means the fuel ran out with a transfer loop still spinning (no terminal
signal yet). -/
structure RunOut where
  progs : List Nat
  sink : List Nat
  sent : Nat
  reads : Nat
  writes : Nat
  terminal : Option Terminal
  deriving DecidableEq

/-- `SerialThread.run`: the `try` body plus the `except` handler, which turns
an escaped exception `e` into `error.emit(f"Port error: {str(e)}")`. -/
def run (t : Transport) (cmd : Command) (fileData : List Nat) (flashSize : Nat)
    (fuel : Nat) : RunOut :=
  let b := runBody t cmd fileData flashSize fuel
  match b.out with
  | .done term => ⟨b.progs, b.sink, b.sent, b.reads, b.writes, some term⟩
  | .exn m => ⟨b.progs, b.sink, b.sent, b.reads, b.writes,
      some (.errorEvt ("Port error: " ++ m))⟩
  | .fuelOut => ⟨b.progs, b.sink, b.sent, b.reads, b.writes, none⟩

/-! Concrete transports used to exercise the theorems below on closed inputs. -/

/-- Acknowledges everything; data reads deliver chunks of at most 2 bytes. -/
def tGood : Transport :=
  ⟨fun _ n => if n = 1 then .ok [0xAA] else .ok (List.replicate (min n 2) 7),
   fun _ => .ok ()⟩

/-- Every read yields the ack byte. -/
def tAckOnly : Transport := ⟨fun _ _ => .ok [0xAA], fun _ => .ok ()⟩

/-- Every read times out empty. -/
def tSilent : Transport := ⟨fun _ _ => .ok [], fun _ => .ok ()⟩

/-- Acknowledges the framed request, then answers `0x00` forever. -/
def tWriteNak : Transport :=
  ⟨fun i _ => if i = 0 then .ok [0xAA] else .ok [0x00], fun _ => .ok ()⟩

/-- Every read raises. -/
def tBoom : Transport := ⟨fun _ _ => .error "boom", fun _ => .ok ()⟩

/-- Acknowledges the framed request, then stalls: every later read is empty. -/
def tStall : Transport :=
  ⟨fun i _ => if i = 0 then .ok [0xAA] else .ok [], fun _ => .ok ()⟩

/-- Detect answered with a truncated 2-byte JEDEC id. -/
def tDetect2 : Transport := ⟨fun _ _ => .ok [0xEF, 0x40], fun _ => .ok ()⟩

/-- Detect answered with a full JEDEC id but a truncated capacity. -/
def tDetect3 : Transport :=
  ⟨fun i _ => if i = 0 then .ok [0xEF, 0x40, 0x15] else .ok [0, 0], fun _ => .ok ()⟩

/-- Detect answered completely: JEDEC id then capacity `0x00100000` little-endian. -/
def tDetect4 : Transport :=
  ⟨fun i _ => if i = 0 then .ok [0xEF, 0x40, 0x15] else .ok [0, 0, 16, 0], fun _ => .ok ()⟩

/-! Unfolding lemmas for the transfer loops. -/

lemma readLoop_of_le (t : Transport) (total fuel ri received : Nat) (sink progs : List Nat)
    (h : total ≤ received) :
    readLoop t total fuel ri received sink progs = ⟨sink, progs, received, ri, .ok⟩ := by
  rw [readLoop.eq_def, if_neg (Nat.not_lt.mpr h)]

lemma readLoop_zero (t : Transport) (total ri received : Nat) (sink progs : List Nat)
    (h : received < total) :
    readLoop t total 0 ri received sink progs = ⟨sink, progs, received, ri, .fuelOut⟩ := by
  rw [readLoop.eq_def, if_pos h]

lemma readLoop_step (t : Transport) (total fuel ri received : Nat) (sink progs : List Nat)
    (h : received < total) :
    readLoop t total (fuel + 1) ri received sink progs =
      match t.readRes ri (min 4096 (total - received)) with
      | .error m => ⟨sink, progs, received, ri + 1, .exn m⟩
      | .ok chunk =>
        readLoop t total fuel (ri + 1) (received + chunk.length) (sink ++ chunk)
          (progs ++ [(received + chunk.length) * 100 / total]) := by
  conv_lhs => rw [readLoop.eq_def]
  rw [if_pos h]

lemma readLoop_step_error (t : Transport) (total fuel ri received : Nat)
    (sink progs : List Nat) (m : String) (h : received < total)
    (hres : t.readRes ri (min 4096 (total - received)) = .error m) :
    readLoop t total (fuel + 1) ri received sink progs =
      ⟨sink, progs, received, ri + 1, .exn m⟩ := by
  rw [readLoop_step t total fuel ri received sink progs h, hres]

lemma readLoop_step_ok (t : Transport) (total fuel ri received : Nat)
    (sink progs chunk : List Nat) (h : received < total)
    (hres : t.readRes ri (min 4096 (total - received)) = .ok chunk) :
    readLoop t total (fuel + 1) ri received sink progs =
      readLoop t total fuel (ri + 1) (received + chunk.length) (sink ++ chunk)
        (progs ++ [(received + chunk.length) * 100 / total]) := by
  rw [readLoop_step t total fuel ri received sink progs h, hres]

lemma writeLoop_of_le (t : Transport) (fd : List Nat) (total fuel wi sent : Nat)
    (progs : List Nat) (h : total ≤ sent) :
    writeLoop t fd total fuel wi sent progs = ⟨progs, sent, wi, .ok⟩ := by
  rw [writeLoop.eq_def, if_neg (Nat.not_lt.mpr h)]

lemma writeLoop_zero (t : Transport) (fd : List Nat) (total wi sent : Nat)
    (progs : List Nat) (h : sent < total) :
    writeLoop t fd total 0 wi sent progs = ⟨progs, sent, wi, .fuelOut⟩ := by
  rw [writeLoop.eq_def, if_pos h]

lemma writeLoop_step (t : Transport) (fd : List Nat) (total fuel wi sent : Nat)
    (progs : List Nat) (h : sent < total) :
    writeLoop t fd total (fuel + 1) wi sent progs =
      match t.writeRes wi with
      | .error m => ⟨progs, sent, wi + 1, .exn m⟩
      | .ok _ =>
        writeLoop t fd total fuel (wi + 1) (sent + ((fd.drop sent).take 256).length)
          (progs ++ [(sent + ((fd.drop sent).take 256).length) * 100 / total]) := by
  conv_lhs => rw [writeLoop.eq_def]
  rw [if_pos h]

lemma writeLoop_step_error (t : Transport) (fd : List Nat) (total fuel wi sent : Nat)
    (progs : List Nat) (m : String) (h : sent < total)
    (hres : t.writeRes wi = .error m) :
    writeLoop t fd total (fuel + 1) wi sent progs = ⟨progs, sent, wi + 1, .exn m⟩ := by
  rw [writeLoop_step t fd total fuel wi sent progs h, hres]

lemma writeLoop_step_ok (t : Transport) (fd : List Nat) (total fuel wi sent : Nat)
    (progs : List Nat) (h : sent < total) (hres : t.writeRes wi = .ok ()) :
    writeLoop t fd total (fuel + 1) wi sent progs =
      writeLoop t fd total fuel (wi + 1) (sent + ((fd.drop sent).take 256).length)
        (progs ++ [(sent + ((fd.drop sent).take 256).length) * 100 / total]) := by
  rw [writeLoop_step t fd total fuel wi sent progs h, hres]

/-- Invariant of the Read transfer loop: `received` never exceeds `total`
(each request is for at most `total - received` bytes and a serial read
returns at most what was requested), the sink holds exactly `received`
bytes, the emitted percentages are bounded by the current percentage and
non-decreasing, a normal exit means `received = total`, and a normal exit
that ran at least one iteration ends the progress list at `total * 100 / total`. -/
lemma readLoop_inv (t : Transport) (total : Nat)
    (hb : ∀ i n c, t.readRes i n = .ok c → c.length ≤ n) :
    ∀ fuel ri received sink progs,
      received ≤ total →
      sink.length = received →
      (∀ p ∈ progs, p ≤ received * 100 / total) →
      List.Chain' (fun a b => a ≤ b) progs →
      (readLoop t total fuel ri received sink progs).received ≤ total ∧
      (readLoop t total fuel ri received sink progs).sink.length =
        (readLoop t total fuel ri received sink progs).received ∧
      (∀ p ∈ (readLoop t total fuel ri received sink progs).progs,
        p ≤ (readLoop t total fuel ri received sink progs).received * 100 / total) ∧
      List.Chain' (fun a b => a ≤ b) (readLoop t total fuel ri received sink progs).progs ∧
      ((readLoop t total fuel ri received sink progs).outcome = .ok →
        (readLoop t total fuel ri received sink progs).received = total) ∧
      ((readLoop t total fuel ri received sink progs).outcome = .ok → received < total →
        (readLoop t total fuel ri received sink progs).progs.getLast? =
          some (total * 100 / total)) := by
  intro fuel
  induction fuel with
  | zero =>
    intro ri received sink progs h1 h2 h3 h4
    by_cases hrt : received < total
    · rw [readLoop_zero t total ri received sink progs hrt]
      exact ⟨h1, h2, h3, h4, by simp, by simp⟩
    · rw [readLoop_of_le t total 0 ri received sink progs (Nat.le_of_not_lt hrt)]
      exact ⟨h1, h2, h3, h4, fun _ => Nat.le_antisymm h1 (Nat.le_of_not_lt hrt),
        fun _ hlt => absurd hlt hrt⟩
  | succ fuel ih =>
    intro ri received sink progs h1 h2 h3 h4
    by_cases hrt : received < total
    · rcases hres : t.readRes ri (min 4096 (total - received)) with m | chunk
      · rw [readLoop_step_error t total fuel ri received sink progs m hrt hres]
        exact ⟨h1, h2, h3, h4, by simp, by simp⟩
      · rw [readLoop_step_ok t total fuel ri received sink progs chunk hrt hres]
        have hcl : chunk.length ≤ min 4096 (total - received) := hb _ _ _ hres
        have h1' : received + chunk.length ≤ total := by omega
        have h2' : (sink ++ chunk).length = received + chunk.length := by
          simp [h2]
        have hmono : received * 100 / total ≤ (received + chunk.length) * 100 / total :=
          Nat.div_le_div_right (Nat.mul_le_mul_right 100 (Nat.le_add_right _ _))
        have h3' : ∀ p ∈ progs ++ [(received + chunk.length) * 100 / total],
            p ≤ (received + chunk.length) * 100 / total := by
          intro p hp
          rcases List.mem_append.mp hp with hp | hp
          · exact le_trans (h3 p hp) hmono
          · simp only [List.mem_singleton] at hp
            exact le_of_eq hp
        have h4' : List.Chain' (fun a b => a ≤ b)
            (progs ++ [(received + chunk.length) * 100 / total]) := by
          refine List.chain'_append.mpr ⟨h4, List.chain'_singleton _, ?_⟩
          intro x hx y hy
          simp only [List.head?_cons, Option.mem_def, Option.some.injEq] at hy
          subst hy
          exact le_trans (h3 x (List.mem_of_mem_getLast? hx)) hmono
        obtain ⟨g1, g2, g3, g4, g5, g6⟩ :=
          ih (ri + 1) (received + chunk.length) (sink ++ chunk)
            (progs ++ [(received + chunk.length) * 100 / total]) h1' h2' h3' h4'
        refine ⟨g1, g2, g3, g4, g5, ?_⟩
        intro hok _
        by_cases hlt : received + chunk.length < total
        · exact g6 hok hlt
        · have he : received + chunk.length = total := by omega
          rw [readLoop_of_le t total fuel (ri + 1) (received + chunk.length)
            (sink ++ chunk) (progs ++ [(received + chunk.length) * 100 / total])
            (le_of_eq he.symm)]
          rw [he]
          exact List.getLast?_concat _
    · rw [readLoop_of_le t total (fuel + 1) ri received sink progs (Nat.le_of_not_lt hrt)]
      exact ⟨h1, h2, h3, h4, fun _ => Nat.le_antisymm h1 (Nat.le_of_not_lt hrt),
        fun _ hlt => absurd hlt hrt⟩

/-- Invariant of the Write transfer loop when the file holds exactly `total`
bytes (as `write_flash` guarantees: `flash_size` is the measured file size):
`sent` never exceeds `total`, and a normal exit means `sent = total`. -/
lemma writeLoop_inv (t : Transport) (fd : List Nat) (total : Nat)
    (hlen : fd.length = total) :
    ∀ fuel wi sent progs, sent ≤ total →
      (writeLoop t fd total fuel wi sent progs).sent ≤ total ∧
      ((writeLoop t fd total fuel wi sent progs).outcome = .ok →
        (writeLoop t fd total fuel wi sent progs).sent = total) := by
  intro fuel
  induction fuel with
  | zero =>
    intro wi sent progs hs
    by_cases hlt : sent < total
    · rw [writeLoop_zero t fd total wi sent progs hlt]
      exact ⟨hs, by simp⟩
    · rw [writeLoop_of_le t fd total 0 wi sent progs (Nat.le_of_not_lt hlt)]
      exact ⟨hs, fun _ => Nat.le_antisymm hs (Nat.le_of_not_lt hlt)⟩
  | succ fuel ih =>
    intro wi sent progs hs
    by_cases hlt : sent < total
    · rw [writeLoop_step t fd total fuel wi sent progs hlt]
      rcases hres : t.writeRes wi with m | u
      · exact ⟨hs, by simp⟩
      · have hchunk : ((fd.drop sent).take 256).length = min 256 (total - sent) := by
          simp [List.length_take, List.length_drop, hlen]
        have hs' : sent + ((fd.drop sent).take 256).length ≤ total := by
          rw [hchunk]; omega
        exact ih (wi + 1) (sent + ((fd.drop sent).take 256).length)
          (progs ++ [(sent + ((fd.drop sent).take 256).length) * 100 / total]) hs'
    · rw [writeLoop_of_le t fd total (fuel + 1) wi sent progs (Nat.le_of_not_lt hlt)]
      exact ⟨hs, fun _ => Nat.le_antisymm hs (Nat.le_of_not_lt hlt)⟩

/-- When the transport's writes all succeed and the file holds exactly `total`
bytes, the Write transfer loop finishes normally within `total` iterations of
fuel, having sent exactly `total` bytes. -/
lemma writeLoop_completes (t : Transport) (fd : List Nat) (total : Nat)
    (hw : ∀ i, t.writeRes i = .ok ()) (hlen : fd.length = total) :
    ∀ fuel wi sent progs, sent ≤ total → total - sent ≤ fuel →
      (writeLoop t fd total fuel wi sent progs).outcome = .ok ∧
      (writeLoop t fd total fuel wi sent progs).sent = total := by
  intro fuel
  induction fuel with
  | zero =>
    intro wi sent progs hs hf
    have he : sent = total := by omega
    rw [writeLoop_of_le t fd total 0 wi sent progs (le_of_eq he.symm)]
    exact ⟨rfl, he⟩
  | succ fuel ih =>
    intro wi sent progs hs hf
    by_cases hlt : sent < total
    · rw [writeLoop_step t fd total fuel wi sent progs hlt, hw wi]
      have hchunk : ((fd.drop sent).take 256).length = min 256 (total - sent) := by
        simp [List.length_take, List.length_drop, hlen]
      refine ih (wi + 1) (sent + ((fd.drop sent).take 256).length)
        (progs ++ [(sent + ((fd.drop sent).take 256).length) * 100 / total])
        (by rw [hchunk]; omega) (by rw [hchunk]; omega)
    · rw [writeLoop_of_le t fd total (fuel + 1) wi sent progs (Nat.le_of_not_lt hlt)]
      exact ⟨rfl, Nat.le_antisymm hs (Nat.le_of_not_lt hlt)⟩

/-- A persistently stalled peer: if every read the Read transfer loop makes
returns an empty chunk, the loop never exits, whatever the fuel. -/
lemma readLoop_stalls (t : Transport) (total : Nat)
    (hz : ∀ i n, 1 ≤ i → t.readRes i n = .ok []) :
    ∀ fuel ri received sink progs, 1 ≤ ri → received < total →
      (readLoop t total fuel ri received sink progs).outcome = .fuelOut := by
  intro fuel
  induction fuel with
  | zero =>
    intro ri received sink progs hri hlt
    rw [readLoop_zero t total ri received sink progs hlt]
  | succ fuel ih =>
    intro ri received sink progs hri hlt
    rw [readLoop_step t total fuel ri received sink progs hlt, hz ri _ hri]
    simpa using ih (ri + 1) received sink
      (progs ++ [received * 100 / total]) (by omega) hlt

/-- Case split on a Read operation: either it failed before entering the
transfer loop (nothing written, no progress, no `finished`), or its sink,
progress list and termination are those of the transfer loop. -/
lemma run_read_spec (t : Transport) (fd : List Nat) (total fuel : Nat) :
    ((run t .read fd total fuel).sink = [] ∧ (run t .read fd total fuel).progs = [] ∧
      (run t .read fd total fuel).terminal ≠ some .finished) ∨
    ((run t .read fd total fuel).sink = (readLoop t total fuel 1 0 [] []).sink ∧
      (run t .read fd total fuel).progs = (readLoop t total fuel 1 0 [] []).progs ∧
      ((run t .read fd total fuel).terminal = some .finished ↔
        (readLoop t total fuel 1 0 [] []).outcome = .ok)) := by
  simp only [run, runBody]
  rcases h0 : t.writeRes 0 with m | u
  · left; simp
  · dsimp only
    rcases h1 : t.writeRes 1 with m | u
    · left; simp
    · dsimp only
      rcases h2 : t.writeRes 2 with m | u
      · left; simp
      · dsimp only
        rcases ha : t.readRes 0 1 with m | ack
        · left; simp
        · dsimp only
          by_cases hack : ack = [0xAA]
          · subst hack
            rw [if_neg (by simp : ¬(([0xAA] : List Nat) ≠ [0xAA]))]
            right
            rcases ho : (readLoop t total fuel 1 0 [] []).outcome with _ | m | _
            · simp
            · simp
            · simp
          · rw [if_pos hack]
            left; simp

/-- Case split on a Write operation: either it failed before entering the
transfer loop (nothing sent, no progress, no `finished`), or its payload count
and progress list are those of the transfer loop, and it can only finish
successfully if the loop exited normally. -/
lemma run_write_spec (t : Transport) (fd : List Nat) (total fuel : Nat) :
    ((run t .write fd total fuel).sent = 0 ∧ (run t .write fd total fuel).progs = [] ∧
      (run t .write fd total fuel).terminal ≠ some .finished) ∨
    ((run t .write fd total fuel).sent = (writeLoop t fd total fuel 3 0 []).sent ∧
      (run t .write fd total fuel).progs = (writeLoop t fd total fuel 3 0 []).progs ∧
      ((run t .write fd total fuel).terminal = some .finished →
        (writeLoop t fd total fuel 3 0 []).outcome = .ok)) := by
  simp only [run, runBody]
  rcases h0 : t.writeRes 0 with m | u
  · left; simp
  · dsimp only
    rcases h1 : t.writeRes 1 with m | u
    · left; simp
    · dsimp only
      rcases h2 : t.writeRes 2 with m | u
      · left; simp
      · dsimp only
        rcases ha : t.readRes 0 1 with m | ack
        · left; simp
        · dsimp only
          by_cases hack : ack = [0xAA]
          · subst hack
            rw [if_neg (by simp : ¬(([0xAA] : List Nat) ≠ [0xAA]))]
            right
            rcases ho : (writeLoop t fd total fuel 3 0 []).outcome with _ | m | _
            · dsimp only
              rcases hf : t.readRes 1 1 with m | fin
              · simp
              · dsimp only
                by_cases hfa : fin = [0xAA] <;> simp [hfa]
            · simp
            · simp
          · rw [if_pos hack]
            left; simp

/-- The chunked reads of `tGood` respect the serial contract: a read returns
at most the number of bytes requested. -/
lemma tGood_bound : ∀ i n c, tGood.readRes i n = .ok c → c.length ≤ n := by
  intro i n c h
  by_cases hn : n = 1
  · subst hn
    simp only [tGood, if_pos rfl] at h
    cases h
    simp
  · simp only [tGood] at h
    rw [if_neg hn] at h
    cases h
    simp

/-! The claims. -/

/-- C1: the specification says decoding never raises — a Winbond JEDEC id
whose capacity code is absent from the capacity table is to fall back to an
"Unknown Winbond (X MB)" string computed from `capacityBytes`, even when
`capacityBytes = 0`. The code violates this: with `capacityBytes = 0` the
local `mb` is never assigned (line 217 is skipped), so the fallback f-string
at line 225 raises UnboundLocalError (`process_detect ... = none`); with a
nonzero capacity the documented fallback string is indeed produced. -/
theorem C1_winbond_unknown_code_fallback :
    process_detect 0xEF 0x99 0x00 0 = none ∧
    process_detect 0xEF 0x99 0x00 (1024 * 1024) =
      some ⟨"EF 99 00", "Winbond", "1.0 MB", "Unknown Winbond (1.0MB)"⟩ :=
  ⟨by decide, by decide⟩

/-- C2: a Read that ends in `finished` has written exactly `totalLength`
bytes to the sink and never more (reads return at most what was requested,
and at most `total - received` is ever requested); a Write over a file of
exactly `totalLength` bytes that ends in `finished` has sent exactly
`totalLength` payload bytes and never more. -/
theorem C2_success_transfers_exact (t : Transport) (fd : List Nat) (total fuel : Nat)
    (hb : ∀ i n c, t.readRes i n = .ok c → c.length ≤ n)
    (hlen : fd.length = total) :
    (run t .read fd total fuel).sink.length ≤ total ∧
    ((run t .read fd total fuel).terminal = some .finished →
      (run t .read fd total fuel).sink.length = total) ∧
    (run t .write fd total fuel).sent ≤ total ∧
    ((run t .write fd total fuel).terminal = some .finished →
      (run t .write fd total fuel).sent = total) := by
  obtain ⟨r1, r2, r3, r4, r5, r6⟩ := readLoop_inv t total hb fuel 1 0 [] []
    (Nat.zero_le total) rfl (by simp) List.chain'_nil
  obtain ⟨w1, w2⟩ := writeLoop_inv t fd total hlen fuel 3 0 [] (Nat.zero_le total)
  refine ⟨?_, ?_, ?_, ?_⟩
  · rcases run_read_spec t fd total fuel with ⟨hs, _, _⟩ | ⟨hs, _, _⟩
    · simp [hs]
    · rw [hs, r2]; exact r1
  · intro hfin
    rcases run_read_spec t fd total fuel with ⟨hs, _, hne⟩ | ⟨hs, _, hiff⟩
    · exact absurd hfin hne
    · rw [hs, r2]; exact r5 (hiff.mp hfin)
  · rcases run_write_spec t fd total fuel with ⟨hs, _, _⟩ | ⟨hs, _, _⟩
    · rw [hs]; exact Nat.zero_le total
    · rw [hs]; exact w1
  · intro hfin
    rcases run_write_spec t fd total fuel with ⟨hs, _, hne⟩ | ⟨hs, _, himp⟩
    · exact absurd hfin hne
    · rw [hs]; exact w2 (himp hfin)

/-- C2 witness: on a concrete transport both a Read and a Write of 3 bytes
complete successfully having transferred exactly 3 bytes. -/
theorem C2_witness :
    (run tGood .read [1, 2, 3] 3 9).sink.length = 3 ∧
    (run tGood .write [1, 2, 3] 3 9).sent = 3 :=
  ⟨(C2_success_transfers_exact tGood [1, 2, 3] 3 9 tGood_bound rfl).2.1 (by decide),
   (C2_success_transfers_exact tGood [1, 2, 3] 3 9 tGood_bound rfl).2.2.2 (by decide)⟩

/-- C3: a Read that completes (the device streamed exactly `totalLength`
bytes, in chunks that never exceed the ≤ 4096-byte requests) emits a
non-decreasing progress sequence of values bounded by 100 (they are `Nat`s,
hence already ≥ 0), ending at 100 when `totalLength > 0`, and the sink
receives exactly `totalLength` bytes. -/
theorem C3_read_progress (t : Transport) (fd : List Nat) (total fuel : Nat)
    (hb : ∀ i n c, t.readRes i n = .ok c → c.length ≤ n)
    (hfin : (run t .read fd total fuel).terminal = some .finished) :
    List.Chain' (fun a b => a ≤ b) (run t .read fd total fuel).progs ∧
    (∀ p ∈ (run t .read fd total fuel).progs, p ≤ 100) ∧
    (0 < total → (run t .read fd total fuel).progs.getLast? = some 100) ∧
    (run t .read fd total fuel).sink.length = total := by
  rcases run_read_spec t fd total fuel with ⟨_, _, hne⟩ | ⟨hs, hp, hiff⟩
  · exact absurd hfin hne
  · have hok := hiff.mp hfin
    obtain ⟨g1, g2, g3, g4, g5, g6⟩ := readLoop_inv t total hb fuel 1 0 [] []
      (Nat.zero_le total) rfl (by simp) List.chain'_nil
    have hcap : (readLoop t total fuel 1 0 [] []).received * 100 / total ≤ 100 := by
      rcases Nat.eq_zero_or_pos total with h | h
      · simp [h]
      · calc (readLoop t total fuel 1 0 [] []).received * 100 / total
            ≤ total * 100 / total :=
              Nat.div_le_div_right (Nat.mul_le_mul_right 100 g1)
          _ = 100 := by rw [Nat.mul_comm]; exact Nat.mul_div_left 100 h
    refine ⟨by rw [hp]; exact g4, ?_, ?_, ?_⟩
    · intro p hmem
      rw [hp] at hmem
      exact le_trans (g3 p hmem) hcap
    · intro hpos
      rw [hp, g6 hok hpos, Nat.mul_comm, Nat.mul_div_left 100 hpos]
    · rw [hs, g2]
      exact g5 hok

/-- C3 witness: a concrete Read of 3 bytes delivered in chunks of at most 2
satisfies all four conclusions. -/
theorem C3_witness :
    List.Chain' (fun a b => a ≤ b) (run tGood .read [] 3 9).progs ∧
    (∀ p ∈ (run tGood .read [] 3 9).progs, p ≤ 100) ∧
    (run tGood .read [] 3 9).progs.getLast? = some 100 ∧
    (run tGood .read [] 3 9).sink.length = 3 := by
  have h := C3_read_progress tGood [] 3 9 tGood_bound (by decide)
  exact ⟨h.1, h.2.1, h.2.2.1 (by decide), h.2.2.2⟩

/-- C4: with `totalLength = 0`, after a successful ack the Read resolves to
`finished` at once — whatever the fuel — without entering the transfer loop:
no progress event, nothing written, and the ack read is the only transport
read performed. -/
theorem C4_read_zero_total (t : Transport) (fd : List Nat) (fuel : Nat)
    (hw0 : t.writeRes 0 = .ok ()) (hw1 : t.writeRes 1 = .ok ())
    (hw2 : t.writeRes 2 = .ok ()) (hack : t.readRes 0 1 = .ok [0xAA]) :
    (run t .read fd 0 fuel).terminal = some .finished ∧
    (run t .read fd 0 fuel).progs = [] ∧
    (run t .read fd 0 fuel).sink = [] ∧
    (run t .read fd 0 fuel).reads = 1 := by
  have hl : readLoop t 0 fuel 1 0 [] [] = ⟨[], [], 0, 1, .ok⟩ :=
    readLoop_of_le t 0 fuel 1 0 [] [] (Nat.le_refl 0)
  simp [run, runBody, hw0, hw1, hw2, hack, hl]

/-- C4 witness: a concrete zero-length Read with fuel 0 — the loop is never
entered, so even no fuel is needed. -/
theorem C4_witness :
    (run tAckOnly .read [] 0 0).terminal = some .finished ∧
    (run tAckOnly .read [] 0 0).progs = [] ∧
    (run tAckOnly .read [] 0 0).sink = [] ∧
    (run tAckOnly .read [] 0 0).reads = 1 :=
  C4_read_zero_total tAckOnly [] 0 rfl rfl rfl rfl

/-- C5: once a Write has pushed the whole `totalLength`-byte payload, the
final ack byte decides the outcome: `0xAA` gives `finished`, any other
answer (including an empty, timed-out read) gives the "Write failed" error —
and in both cases every payload byte had already been sent. -/
theorem C5_write_final_ack (t : Transport) (fd : List Nat) (total fuel : Nat)
    (c : List Nat) (hw : ∀ i, t.writeRes i = .ok ())
    (hack : t.readRes 0 1 = .ok [0xAA]) (hlen : fd.length = total)
    (hfuel : total ≤ fuel) (hfin : t.readRes 1 1 = .ok c) :
    (run t .write fd total fuel).terminal =
      some (if c = [0xAA] then Terminal.finished else .errorEvt "Write failed") ∧
    (run t .write fd total fuel).sent = total := by
  obtain ⟨hok, hsent⟩ := writeLoop_completes t fd total hw hlen fuel 3 0 []
    (Nat.zero_le total) (by omega)
  by_cases hc : c = [0xAA] <;>
    simp [run, runBody, hw 0, hw 1, hw 2, hack, hok, hsent, hfin, hc]

/-- C5 witness: a 3-byte Write whose final ack is `0x00` reports
"Write failed" although all 3 payload bytes were sent. -/
theorem C5_witness :
    (run tWriteNak .write [1, 2, 3] 3 3).terminal =
      some (.errorEvt "Write failed") ∧
    (run tWriteNak .write [1, 2, 3] 3 3).sent = 3 := by
  have h := C5_write_final_ack tWriteNak [1, 2, 3] 3 3 [0x00] (fun _ => rfl) rfl rfl
    (Nat.le_refl 3) rfl
  simpa using h

/-- C6: a truncated JEDEC answer (< 3 bytes) makes Detect fail with
"JEDEC ID read failed" after a single transport read — the capacity read is
never attempted; a full JEDEC answer followed by a truncated capacity answer
(< 4 bytes) fails with "Capacity read failed"; full answers produce the
`detect_result` with the 4 capacity bytes decoded little-endian. -/
theorem C6_detect_protocol_errors (t : Transport) (fd : List Nat) (n fuel : Nat)
    (hw : t.writeRes 0 = .ok ()) :
    (∀ j, t.readRes 0 3 = .ok j → j.length < 3 →
      (run t .detect fd n fuel).terminal = some (.errorEvt "JEDEC ID read failed") ∧
      (run t .detect fd n fuel).reads = 1) ∧
    (∀ j cb, t.readRes 0 3 = .ok j → j.length = 3 → t.readRes 1 4 = .ok cb →
      cb.length < 4 →
      (run t .detect fd n fuel).terminal = some (.errorEvt "Capacity read failed")) ∧
    (∀ j cb, t.readRes 0 3 = .ok j → j.length = 3 → t.readRes 1 4 = .ok cb →
      cb.length = 4 →
      (run t .detect fd n fuel).terminal = some (.detected j (fromLEBytes cb))) := by
  refine ⟨?_, ?_, ?_⟩
  · intro j hj hshort
    have hne : j.length ≠ 3 := by omega
    simp [run, runBody, hw, hj, hne]
  · intro j cb hj hlen hcb hshort
    have hne : cb.length ≠ 4 := by omega
    simp [run, runBody, hw, hj, hlen, hcb, hne]
  · intro j cb hj hlen hcb hclen
    simp [run, runBody, hw, hj, hlen, hcb, hclen]

/-- C6 witness: the three Detect outcomes on concrete transports, including
that the truncated-JEDEC case performs exactly one read. -/
theorem C6_witness :
    ((run tDetect2 .detect [] 0 0).terminal =
        some (.errorEvt "JEDEC ID read failed") ∧
      (run tDetect2 .detect [] 0 0).reads = 1) ∧
    (run tDetect3 .detect [] 0 0).terminal =
      some (.errorEvt "Capacity read failed") ∧
    (run tDetect4 .detect [] 0 0).terminal =
      some (.detected [0xEF, 0x40, 0x15] 0x00100000) :=
  ⟨(C6_detect_protocol_errors tDetect2 [] 0 0 rfl).1 [0xEF, 0x40] rfl (by decide),
   (C6_detect_protocol_errors tDetect3 [] 0 0 rfl).2.1 [0xEF, 0x40, 0x15] [0, 0]
     rfl rfl rfl (by decide),
   (C6_detect_protocol_errors tDetect4 [] 0 0 rfl).2.2 [0xEF, 0x40, 0x15] [0, 0, 16, 0]
     rfl rfl rfl rfl⟩

/-- C7: Erase writes `'E'` and reads one ack byte; `0xAA` yields `finished`,
anything else — a different byte or an empty, timed-out read — yields the
"Erase failed" error. -/
theorem C7_erase_ack (t : Transport) (fd : List Nat) (n fuel : Nat) (c : List Nat)
    (hw : t.writeRes 0 = .ok ()) (hr : t.readRes 0 1 = .ok c) :
    (run t .erase fd n fuel).terminal =
      some (if c = [0xAA] then Terminal.finished else .errorEvt "Erase failed") := by
  by_cases hc : c = [0xAA] <;> simp [run, runBody, hw, hr, hc]

/-- C7 witness: ack `0xAA` succeeds; an absent (empty) ack fails. -/
theorem C7_witness :
    (run tAckOnly .erase [] 0 0).terminal = some .finished ∧
    (run tSilent .erase [] 0 0).terminal = some (.errorEvt "Erase failed") :=
  ⟨by simpa using C7_erase_ack tAckOnly [] 0 0 [0xAA] rfl rfl,
   by simpa using C7_erase_ack tSilent [] 0 0 [] rfl rfl⟩

/-- C8: whenever the `try` body of `SerialThread.run` is aborted by a
transport exception `m`, the operation's terminal event is exactly
`error("Port error: " ++ m)` — never `finished`, never a `detect_result` —
and nothing beyond what the body already did is performed: progress events,
sink contents and transport call counts are those at the point of the
exception. -/
theorem C8_exception_surfaces_port_error (t : Transport) (cmd : Command)
    (fd : List Nat) (n fuel : Nat) (m : String)
    (h : (runBody t cmd fd n fuel).out = .exn m) :
    (run t cmd fd n fuel).terminal = some (.errorEvt ("Port error: " ++ m)) ∧
    (run t cmd fd n fuel).progs = (runBody t cmd fd n fuel).progs ∧
    (run t cmd fd n fuel).sink = (runBody t cmd fd n fuel).sink ∧
    (run t cmd fd n fuel).reads = (runBody t cmd fd n fuel).reads ∧
    (run t cmd fd n fuel).writes = (runBody t cmd fd n fuel).writes ∧
    (run t cmd fd n fuel).terminal ≠ some .finished ∧
    ∀ j c, (run t cmd fd n fuel).terminal ≠ some (.detected j c) := by
  simp [run, h]

/-- C8 witness: a transport whose first read raises "boom" during Detect
surfaces `Port error: boom` and no success event. -/
theorem C8_witness :
    (run tBoom .detect [] 0 0).terminal = some (.errorEvt "Port error: boom") ∧
    (run tBoom .detect [] 0 0).terminal ≠ some .finished :=
  ⟨(C8_exception_surfaces_port_error tBoom .detect [] 0 0 "boom" (by decide)).1,
   (C8_exception_surfaces_port_error tBoom .detect [] 0 0 "boom" (by decide)).2.2.2.2.2.1⟩

/-- C9: the worked example `jedec = [0xEF, 0x40, 0x15]`,
`capacityBytes = 0x00100000` decodes to manufacturer Winbond with part number
"W25Q40 (1MB)" (capacity code `0x40`, label "1MB"); and any JEDEC id whose
manufacturer byte is absent from the manufacturer table decodes to
manufacturer "Unknown" without raising. -/
theorem C9_decode_examples :
    process_detect 0xEF 0x40 0x15 0x00100000 =
      some ⟨"EF 40 15", "Winbond", "1.0 MB", "W25Q40 (1MB)"⟩ ∧
    ∀ j0 j1 j2 capacity, tableGet MANUFACTURERS j0 = none →
      ∃ v, process_detect j0 j1 j2 capacity = some v ∧
        v.manufacturer = "Unknown" := by
  refine ⟨by decide, ?_⟩
  intro j0 j1 j2 capacity h
  simp only [process_detect, h, Option.getD_none]
  rw [if_neg (by decide : ¬("Unknown" : String) = "Winbond")]
  rcases hd : tableGet DEVICE_CAPACITY j2 with _ | lbl
  · exact ⟨_, rfl, rfl⟩
  · exact ⟨_, rfl, rfl⟩

/-- C9 witness: manufacturer byte `0x00` is absent from the table and decodes
to "Unknown" without raising. -/
theorem C9_witness :
    ∃ v, process_detect 0x00 0x40 0x15 0 = some v ∧ v.manufacturer = "Unknown" :=
  C9_decode_examples.2 0x00 0x40 0x15 0 (by decide)

/-- C10: the Read transfer loop stops only when `received` reaches
`totalLength`; against a persistently stalled peer — every read in the loop
returning 0 bytes — `received` never advances, so for every fuel bound the
operation is still running: no terminal event is ever emitted. -/
theorem C10_read_stalled_never_terminates (t : Transport) (fd : List Nat)
    (total fuel : Nat) (hpos : 0 < total)
    (hw0 : t.writeRes 0 = .ok ()) (hw1 : t.writeRes 1 = .ok ())
    (hw2 : t.writeRes 2 = .ok ()) (hack : t.readRes 0 1 = .ok [0xAA])
    (hz : ∀ i n, 1 ≤ i → t.readRes i n = .ok []) :
    (run t .read fd total fuel).terminal = none := by
  have hst := readLoop_stalls t total hz fuel 1 0 [] [] (Nat.le_refl 1) hpos
  simp [run, runBody, hw0, hw1, hw2, hack, hst]

/-- C10 witness: a concrete stalled 5-byte Read has produced no terminal
event after 1000 loop iterations. -/
theorem C10_witness : (run tStall .read [] 5 1000).terminal = none :=
  C10_read_stalled_never_terminates tStall [] 5 1000 (by decide) rfl rfl rfl rfl
    (fun i nn hi => by
      show (if i = 0 then Except.ok [0xAA] else Except.ok []) = Except.ok []
      rw [if_neg (by omega)])

end SpiFlasher

example : SpiFlasher.process_detect 0xEF 0x40 0x15 0x00100000 =
    some ⟨"EF 40 15", "Winbond", "1.0 MB", "W25Q40 (1MB)"⟩ := by decide

example : SpiFlasher.process_detect 0xEF 0x99 0 0 = none := by decide

example : SpiFlasher.process_detect 0xEF 0x99 0 (1024 * 1024) =
    some ⟨"EF 99 00", "Winbond", "1.0 MB", "Unknown Winbond (1.0MB)"⟩ := by decide

example : SpiFlasher.process_detect 0x00 0x40 0x15 0 =
    some ⟨"00 40 15", "Unknown", "Unknown", "8MB Chip"⟩ := by decide

example : SpiFlasher.process_detect 0x00 0x40 0x99 0 =
    some ⟨"00 40 99", "Unknown", "Unknown", "Unknown (0.0MB)"⟩ := by decide
